import Mathlib

/-!
Shallow embedding of the chat backend's domain layer: the Lucid models
(users, conversations, conversation participants, messages), the
ConversationAuthorizationService, and the conversation / message
controllers, as pure functions over an explicit database state.

Identifiers are natural numbers (auto-increment primary keys), instants
are natural numbers (`now` is the request clock), and each controller
action is a function from the database state and the validated request
data to a response value paired with the successor state.  Thrown
authorization errors and their catch blocks in the controllers are
modelled by the dedicated response constructors they are translated to.
-/

structure User where
  id : Nat
  email : String
  fullName : Option String
deriving Repr, DecidableEq

structure Conversation where
  id : Nat
  name : Option String
  descr : Option String
  createdBy : Nat
  createdAt : Nat
deriving Repr, DecidableEq

structure Participant where
  id : Nat
  conversationId : Nat
  userId : Nat
  joinedAt : Nat
deriving Repr, DecidableEq

structure Message where
  id : Nat
  conversationId : Nat
  userId : Nat
  content : String
  replyToId : Option Nat
  editedAt : Option Nat
  createdAt : Nat
deriving Repr, DecidableEq

structure DB where
  users : List User
  conversations : List Conversation
  participants : List Participant
  messages : List Message
  nextConversationId : Nat
  nextParticipantId : Nat
  nextMessageId : Nat
  now : Nat
deriving Repr, DecidableEq

/-- The public projection of a user row selected by the controllers:
`query.select('id', 'email', 'fullName')`. -/
structure UserSummary where
  id : Nat
  email : String
  fullName : Option String
deriving Repr, DecidableEq

def userSummaryOf (u : User) : UserSummary :=
  ⟨u.id, u.email, u.fullName⟩

/-- `User.find(id)`. -/
def findUser (db : DB) (userId : Nat) : Option User :=
  db.users.find? (fun u => u.id == userId)

namespace ConversationAuthorizationService

/-- `isParticipant`: a participant row for the pair exists. -/
def isParticipant (db : DB) (conversationId userId : Nat) : Bool :=
  (db.participants.find? (fun p =>
    p.conversationId == conversationId && p.userId == userId)).isSome

/-- `isCreator`: `conversation?.createdBy === userId`; a missing
conversation compares as not-the-creator. -/
def isCreator (db : DB) (conversationId userId : Nat) : Bool :=
  match db.conversations.find? (fun c => c.id == conversationId) with
  | none => false
  | some c => c.createdBy == userId

end ConversationAuthorizationService

/-- Whitespace trimming from both ends of the character sequence — the
semantics of the validators' `.trim()`. -/
def trimChars (l : List Char) : List Char :=
  ((l.dropWhile Char.isWhitespace).reverse.dropWhile Char.isWhitespace).reverse

/-- `.trim()` on a string. -/
def trimString (s : String) : String :=
  ⟨trimChars s.data⟩

namespace Validators

/-- `vine.string().trim().minLength(1)`: the value is trimmed and must
then be non-empty; the validated payload carries the trimmed string. -/
def trimmedNonEmpty (s : String) : Option String :=
  if 1 ≤ (trimString s).length then some (trimString s) else none

/-- `createMessageValidator`: content as above, replyToId optional. -/
def createMessage (content : String) (replyToId : Option Nat) :
    Option (String × Option Nat) :=
  (trimmedNonEmpty content).map (fun t => (t, replyToId))

/-- `updateMessageValidator`. -/
def updateMessage (content : String) : Option String :=
  trimmedNonEmpty content

/-- `createConversationValidator`: `participantIds` must have at least
one element (name and description are optional pass-throughs). -/
def createConversation (participantIds : List Nat) : Bool :=
  1 ≤ participantIds.length

end Validators

/-- The shallow reply preview the message controller loads:
`select('id', 'content', 'user_id')` on the target plus the target
author's public summary. -/
structure ReplyPreview where
  id : Nat
  content : String
  userId : Nat
  author : Option UserSummary
deriving Repr, DecidableEq

/-- `message.load('replyTo', ...)`: look the target up by id and attach
its author summary. -/
def loadReplyPreview (db : DB) (replyToId : Nat) : Option ReplyPreview :=
  (db.messages.find? (fun m => m.id == replyToId)).map (fun t =>
    ⟨t.id, t.content, t.userId, (findUser db t.userId).map userSummaryOf⟩)

namespace MessageController

inductive StoreResult where
  | validationFailed
  | notAParticipant
  | replyTargetNotFound
  | replyTargetCrossConversation
  | created (message : Message) (replyPreview : Option ReplyPreview)
deriving Repr, DecidableEq

/-- `Message.create({...})` with the auto-increment id and the
auto-created timestamp. -/
def insertMessage (db : DB) (conversationId userId : Nat) (content : String)
    (replyToId : Option Nat) : Message × DB :=
  let m : Message :=
    ⟨db.nextMessageId, conversationId, userId, content, replyToId, none, db.now⟩
  (m, { db with
          messages := db.messages ++ [m]
          nextMessageId := db.nextMessageId + 1 })

/-- `MessageController.store`: validate, ensure the caller is a
participant, then — `if (payload.replyToId)`, which is JavaScript
truthiness, so an absent id and the id 0 both skip the checks — require
the reply target to exist and to belong to the same conversation, then
insert and load the shallow reply preview. -/
def store (db : DB) (callerId conversationId : Nat) (content : String)
    (replyToId : Option Nat) : StoreResult × DB :=
  match Validators.createMessage content replyToId with
  | none => (.validationFailed, db)
  | some payload =>
    if !(ConversationAuthorizationService.isParticipant db conversationId callerId) then
      (.notAParticipant, db)
    else
      let requested := match payload.2 with
        | some n => if n == 0 then none else some n
        | none => none
      match requested with
      | some rid =>
        match db.messages.find? (fun m => m.id == rid) with
        | none => (.replyTargetNotFound, db)
        | some target =>
          if target.conversationId ≠ conversationId then
            (.replyTargetCrossConversation, db)
          else
            let r := insertMessage db conversationId callerId payload.1 (some rid)
            (.created r.1 (loadReplyPreview r.2 rid), r.2)
      | none =>
        let r := insertMessage db conversationId callerId payload.1 none
        (.created r.1 none, r.2)

inductive UpdateResult where
  | validationFailed
  | messageNotFound
  | notMessageOwner
  | ok (message : Message) (replyPreview : Option ReplyPreview)
deriving Repr, DecidableEq

/-- `MessageController.update`: load the message, check ownership only
(no participant check appears in this path), set the content and the
edited-at mark, save, and reload the reply preview if present. -/
def update (db : DB) (callerId messageId : Nat) (content : String) :
    UpdateResult × DB :=
  match Validators.updateMessage content with
  | none => (.validationFailed, db)
  | some newContent =>
    match db.messages.find? (fun m => m.id == messageId) with
    | none => (.messageNotFound, db)
    | some m =>
      if m.userId ≠ callerId then (.notMessageOwner, db)
      else
        let m1 := { m with content := newContent, editedAt := some db.now }
        let db1 := { db with
          messages := db.messages.map (fun x => if x.id == messageId then m1 else x) }
        let preview := match m1.replyToId with
          | some rid => if rid == 0 then none else loadReplyPreview db1 rid
          | none => none
        (.ok m1 preview, db1)

inductive DestroyResult where
  | messageNotFound
  | notMessageOwner
  | noContent
deriving Repr, DecidableEq

/-- Modelled from the spec: the messages-table migration itself is not
among the given source files; per the data model and the repository's
PROBLEMS_AND_SOLUTIONS notes, the self-referencing foreign key
`reply_to_id` is declared with `onDelete('SET NULL')`, so deleting a
message removes its row and clears (rather than cascade-deletes) the
`replyToId` of every message that referenced it. -/
def dbDeleteMessage (db : DB) (messageId : Nat) : DB :=
  { db with messages :=
      (db.messages.filter (fun x => x.id != messageId)).map (fun x =>
        if x.replyToId == some messageId then { x with replyToId := none } else x) }

/-- `MessageController.destroy`: load, check ownership, delete. -/
def destroy (db : DB) (callerId messageId : Nat) : DestroyResult × DB :=
  match db.messages.find? (fun m => m.id == messageId) with
  | none => (.messageNotFound, db)
  | some m =>
    if m.userId ≠ callerId then (.notMessageOwner, db)
    else (.noContent, dbDeleteMessage db messageId)

end MessageController

/-- `orderBy('created_at', 'desc')`: newest creation instant first. -/
def newestFirst (a b : Message) : Prop :=
  b.createdAt ≤ a.createdAt

instance : DecidableRel newestFirst :=
  fun a b => Nat.decLe b.createdAt a.createdAt

instance : IsTotal Message newestFirst :=
  ⟨fun a b => Nat.le_total b.createdAt a.createdAt⟩

instance : IsTrans Message newestFirst :=
  ⟨fun _ _ _ h1 h2 => Nat.le_trans h2 h1⟩

def sortNewestFirst (l : List Message) : List Message :=
  List.insertionSort newestFirst l

namespace MessageController

inductive IndexResult where
  | notAParticipant
  | ok (rows : List Message)
deriving Repr, DecidableEq

/-- `MessageController.index`: ensure the caller is a participant, then
return the conversation's messages newest-created first, paginated with
`request.input('page', 1)` and `request.input('limit', 50)` — absent
inputs fall back to page 1 and page size 50. -/
def index (db : DB) (callerId conversationId : Nat)
    (page limit : Option Nat) : IndexResult :=
  if !(ConversationAuthorizationService.isParticipant db conversationId callerId) then
    .notAParticipant
  else
    let p := page.getD 1
    let l := limit.getD 50
    let rows := sortNewestFirst
      (db.messages.filter (fun m => m.conversationId == conversationId))
    .ok ((rows.drop ((p - 1) * l)).take l)

end MessageController

namespace ConversationController

inductive StoreResult where
  | validationFailed
  | invalidParticipant
  | created (conversation : Conversation)
deriving Repr, DecidableEq

/-- `ConversationController.store`: create the conversation row, add the
creator as a participant, filter the creator's id out of
`participantIds` (duplicates are kept as-is), and if anything remains,
compare the count of matching user rows with the count of requested ids
— `users.length !== participantIds.length` fails the whole step with
the invalid-participant response, leaving the conversation row and the
creator's participant row committed — otherwise bulk-insert the rows. -/
def store (db : DB) (callerId : Nat) (name descr : Option String)
    (participantIds : List Nat) : StoreResult × DB :=
  if !(Validators.createConversation participantIds) then (.validationFailed, db)
  else
    let conv : Conversation :=
      ⟨db.nextConversationId, name, descr, callerId, db.now⟩
    let db1 := { db with
      conversations := db.conversations ++ [conv]
      nextConversationId := db.nextConversationId + 1 }
    let creatorRow : Participant :=
      ⟨db1.nextParticipantId, conv.id, callerId, db1.now⟩
    let db2 := { db1 with
      participants := db1.participants ++ [creatorRow]
      nextParticipantId := db1.nextParticipantId + 1 }
    let pids := participantIds.filter (fun i => i != callerId)
    if 0 < pids.length then
      let found := db2.users.filter (fun u => pids.contains u.id)
      if found.length ≠ pids.length then (.invalidParticipant, db2)
      else
        let rows := pids.enum.map (fun ik =>
          (⟨db2.nextParticipantId + ik.1, conv.id, ik.2, db2.now⟩ : Participant))
        (.created conv, { db2 with
          participants := db2.participants ++ rows
          nextParticipantId := db2.nextParticipantId + pids.length })
    else (.created conv, db2)

inductive UpdateResult where
  | notCreator
  | rowNotFound
  | ok (conversation : Conversation)
deriving Repr, DecidableEq

/-- `ConversationController.update`: `ensureCreator` first (its failure
is caught and rendered as the only-the-creator response), then
`findOrFail` and merge the provided fields. The `rowNotFound` branch is
unreachable because `isCreator` already implies the row exists. -/
def update (db : DB) (callerId conversationId : Nat)
    (name descr : Option String) : UpdateResult × DB :=
  if !(ConversationAuthorizationService.isCreator db conversationId callerId) then
    (.notCreator, db)
  else
    match db.conversations.find? (fun c => c.id == conversationId) with
    | none => (.rowNotFound, db)
    | some c =>
      let c1 : Conversation :=
        { c with
          name := match name with | some v => some v | none => c.name
          descr := match descr with | some v => some v | none => c.descr }
      let db1 := { db with
        conversations := db.conversations.map (fun x =>
          if x.id == conversationId then c1 else x) }
      (.ok c1, db1)

inductive DestroyResult where
  | notCreator
  | rowNotFound
  | noContent
deriving Repr, DecidableEq

/-- `ConversationController.destroy`: `ensureCreator`, then delete the
conversation. The participant rows go with it by the CASCADE clause of
the conversation-participants migration; the message rows go with it by
the conversations foreign key of the messages migration (modelled from
the spec: that migration is not among the given source files, the spec
states conversation deletion cascades to its messages). -/
def destroy (db : DB) (callerId conversationId : Nat) : DestroyResult × DB :=
  if !(ConversationAuthorizationService.isCreator db conversationId callerId) then
    (.notCreator, db)
  else
    match db.conversations.find? (fun c => c.id == conversationId) with
    | none => (.rowNotFound, db)
    | some _ =>
      (.noContent, { db with
        conversations := db.conversations.filter (fun x => x.id != conversationId)
        participants := db.participants.filter (fun p => p.conversationId != conversationId)
        messages := db.messages.filter (fun m => m.conversationId != conversationId) })

inductive AddParticipantResult where
  | notAParticipant
  | alreadyParticipant
  | userNotFound
  | ok
  | uniqueViolationError
deriving Repr, DecidableEq

/-- The read phase of `ConversationController.addParticipant`: the
caller's participant check, the already-a-participant check and the
target-user lookup; `none` means the call proceeds to the insert. -/
def addPhase (db : DB) (callerId conversationId targetUserId : Nat) :
    Option AddParticipantResult :=
  if !(ConversationAuthorizationService.isParticipant db conversationId callerId) then
    some .notAParticipant
  else if (db.participants.find? (fun p =>
      p.conversationId == conversationId && p.userId == targetUserId)).isSome then
    some .alreadyParticipant
  else if (findUser db targetUserId).isNone then
    some .userNotFound
  else
    none

/-- `ConversationParticipant.create` against the store, which enforces
the unique index on (conversation_id, user_id) declared by the
conversation-participants migration. A violating insert raises a
database error; since its message is not the participant-check message,
the controller's catch block re-raises it, so it surfaces as the generic
error response — not as the already-participant response. -/
def insertParticipant (db : DB) (conversationId targetUserId : Nat) :
    AddParticipantResult × DB :=
  if (db.participants.find? (fun p =>
      p.conversationId == conversationId && p.userId == targetUserId)).isSome then
    (.uniqueViolationError, db)
  else
    (.ok, { db with
      participants := db.participants ++
        [⟨db.nextParticipantId, conversationId, targetUserId, db.now⟩]
      nextParticipantId := db.nextParticipantId + 1 })

/-- `ConversationController.addParticipant` run in isolation. -/
def addParticipant (db : DB) (callerId conversationId targetUserId : Nat) :
    AddParticipantResult × DB :=
  match addPhase db callerId conversationId targetUserId with
  | some r => (r, db)
  | none => insertParticipant db conversationId targetUserId

/-- Two concurrent `addParticipant` calls in the interleaving where both
read phases run against the same initial state and the two inserts then
execute one after the other. -/
def addParticipantRace (db : DB) (caller1 caller2 conversationId targetUserId : Nat) :
    (AddParticipantResult × AddParticipantResult) × DB :=
  let r1 := addPhase db caller1 conversationId targetUserId
  let r2 := addPhase db caller2 conversationId targetUserId
  let s1 := match r1 with
    | some r => (r, db)
    | none => insertParticipant db conversationId targetUserId
  let s2 := match r2 with
    | some r => (r, s1.2)
    | none => insertParticipant s1.2 conversationId targetUserId
  ((s1.1, s2.1), s2.2)

inductive RemoveParticipantResult where
  | notAParticipant
  | participantNotFound
  | ok
deriving Repr, DecidableEq

/-- `ConversationController.removeParticipant`: `ensureParticipant` for
the caller, find the target's row, delete it by primary key. -/
def removeParticipant (db : DB) (callerId conversationId targetUserId : Nat) :
    RemoveParticipantResult × DB :=
  if !(ConversationAuthorizationService.isParticipant db conversationId callerId) then
    (.notAParticipant, db)
  else
    match db.participants.find? (fun p =>
        p.conversationId == conversationId && p.userId == targetUserId) with
    | none => (.participantNotFound, db)
    | some p =>
      (.ok, { db with
        participants := db.participants.filter (fun q => q.id != p.id) })

end ConversationController

/-! Concrete database states used by the witnesses and counterexamples. -/

/-- A created "hello" by user 1; user 2 is a fellow participant. -/
def dbReply : DB :=
  ⟨[⟨1, "a@x", some "A"⟩, ⟨2, "b@x", some "B"⟩],
   [⟨1, none, none, 1, 0⟩],
   [⟨1, 1, 1, 0⟩, ⟨2, 1, 2, 0⟩],
   [⟨1, 1, 1, "hello", none, none, 1⟩],
   2, 3, 2, 5⟩

/-- User 1 authored message 1 in conversation 1 but has no participant
row any more. -/
def dbNoPart : DB :=
  ⟨[⟨1, "a@x", none⟩],
   [⟨1, none, none, 1, 0⟩],
   [],
   [⟨1, 1, 1, "old", none, none, 0⟩],
   2, 1, 2, 7⟩

/-- Message 2 replies to message 1; both authors are participants. -/
def dbThread : DB :=
  ⟨[⟨1, "a@x", none⟩, ⟨2, "b@x", none⟩],
   [⟨1, none, none, 1, 0⟩],
   [⟨1, 1, 1, 0⟩, ⟨2, 1, 2, 0⟩],
   [⟨1, 1, 1, "hello", none, none, 1⟩, ⟨2, 1, 2, "re", some 1, none, 2⟩],
   2, 3, 3, 9⟩

/-- Two conversations: message 1 lives in conversation 2; user 1 is a
participant of conversation 1 only, user 2 of conversation 2 only. -/
def dbCross : DB :=
  ⟨[⟨1, "a@x", none⟩, ⟨2, "b@x", none⟩],
   [⟨1, none, none, 1, 0⟩, ⟨2, none, none, 2, 0⟩],
   [⟨1, 1, 1, 0⟩, ⟨2, 2, 2, 0⟩],
   [⟨1, 2, 2, "x", none, none, 0⟩],
   3, 3, 2, 4⟩

/-- Users 1 and 2 are both participants of conversation 1. -/
def dbRoster : DB :=
  ⟨[⟨1, "a@x", none⟩, ⟨2, "b@x", none⟩],
   [⟨1, none, none, 1, 0⟩],
   [⟨1, 1, 1, 0⟩, ⟨2, 1, 2, 0⟩],
   [],
   2, 3, 1, 3⟩

/-- Users 1 and 2 are participants of conversation 1; user 3 exists but
is not a participant. -/
def dbRace : DB :=
  ⟨[⟨1, "a@x", none⟩, ⟨2, "b@x", none⟩, ⟨3, "c@x", none⟩],
   [⟨1, none, none, 1, 0⟩],
   [⟨1, 1, 1, 0⟩, ⟨2, 1, 2, 0⟩],
   [],
   2, 3, 1, 6⟩

/-- A fresh store with two users and no conversations yet. -/
def dbFresh : DB :=
  ⟨[⟨1, "a@x", none⟩, ⟨2, "b@x", none⟩], [], [], [], 1, 1, 1, 2⟩

/-- One conversation with one participant and 120 messages with
strictly increasing creation instants. -/
def dbPages : DB :=
  ⟨[⟨1, "a@x", none⟩],
   [⟨1, none, none, 1, 0⟩],
   [⟨1, 1, 1, 0⟩],
   (List.range 120).map (fun i => ⟨i + 1, 1, 1, "m", none, none, i⟩),
   2, 2, 121, 200⟩

/-- Claim C10: when the conversationId refers to no existing
conversation, conversation update and destroy both fail on the creator
gate (the 403 not-creator path) and leave the state unchanged — never a
conversation-not-found error, because isCreator returns false for a
missing conversation, so these paths cannot tell a nonexistent
conversation from an existing one the caller did not create. -/
theorem missing_conversation_update_destroy_not_creator
    (db : DB) (callerId conversationId : Nat) (name descr : Option String)
    (hnone : db.conversations.find? (fun c => c.id == conversationId) = none) :
    ConversationController.update db callerId conversationId name descr
      = (ConversationController.UpdateResult.notCreator, db) ∧
    ConversationController.destroy db callerId conversationId
      = (ConversationController.DestroyResult.notCreator, db) := by
  have hc : ConversationAuthorizationService.isCreator db conversationId callerId = false := by
    unfold ConversationAuthorizationService.isCreator
    rw [hnone]
  constructor <;>
    simp [ConversationController.update, ConversationController.destroy, hc]

/-- Witness for C10 at a concrete store: conversation 5 does not exist. -/
theorem missing_conversation_update_destroy_not_creator_witness :
    ConversationController.update dbFresh 1 5 none none
      = (ConversationController.UpdateResult.notCreator, dbFresh) ∧
    ConversationController.destroy dbFresh 1 5
      = (ConversationController.DestroyResult.notCreator, dbFresh) :=
  missing_conversation_update_destroy_not_creator dbFresh 1 5 none none rfl

/-- Claim C3 fails on the code: user 1 authored message 1 but has no
participant row, yet the update succeeds and modifies the message — no
ensureParticipant check exists anywhere in the message-update path. -/
theorem message_update_without_participancy_cx :
    ConversationAuthorizationService.isParticipant dbNoPart 1 1 = false ∧
    (MessageController.update dbNoPart 1 1 "new").1
      = MessageController.UpdateResult.ok ⟨1, 1, 1, "new", none, some 7, 0⟩ none ∧
    (MessageController.update dbNoPart 1 1 "new").2.messages
      = [⟨1, 1, 1, "new", none, some 7, 0⟩] := by
  refine ⟨rfl, by decide, by decide⟩

/-- Claim C3 amended: for a message author, update succeeds and modifies
the message even when no participant row exists for the author —
ownership is the only gate on the update path. -/
theorem message_update_owner_only_gate
    (db : DB) (callerId messageId : Nat) (content : String) (m : Message)
    (hfind : db.messages.find? (fun x => x.id == messageId) = some m)
    (hown : m.userId = callerId)
    (hnp : ConversationAuthorizationService.isParticipant db m.conversationId callerId
      = false)
    (hval : 1 ≤ (trimString content).length) :
    ∃ rp, MessageController.update db callerId messageId content
        = (MessageController.UpdateResult.ok
            { m with content := trimString content, editedAt := some db.now } rp,
           { db with messages := db.messages.map (fun x =>
               if x.id == messageId then
                 { m with content := trimString content, editedAt := some db.now }
               else x) }) := by
  have h1 : Validators.updateMessage content = some (trimString content) := by
    unfold Validators.updateMessage Validators.trimmedNonEmpty
    rw [if_pos hval]
  unfold MessageController.update
  rw [h1, hfind]
  dsimp only
  rw [if_neg (by simp [hown])]
  exact ⟨_, rfl⟩

/-- Witness for the amended C3 at the concrete non-participant author. -/
theorem message_update_owner_only_gate_witness :
    ∃ rp, MessageController.update dbNoPart 1 1 "new"
        = (MessageController.UpdateResult.ok
            { (⟨1, 1, 1, "old", none, none, 0⟩ : Message) with
                content := trimString "new", editedAt := some dbNoPart.now } rp,
           { dbNoPart with messages := dbNoPart.messages.map (fun x =>
               if x.id == 1 then
                 { (⟨1, 1, 1, "old", none, none, 0⟩ : Message) with
                     content := trimString "new", editedAt := some dbNoPart.now }
               else x) }) :=
  message_update_owner_only_gate dbNoPart 1 1 "new"
    ⟨1, 1, 1, "old", none, none, 0⟩ rfl rfl rfl (by decide)

/-- Claim C8: an authorized delete of a message that is the reply target
of another message returns success, removes every row with the deleted
id, and keeps the reply with its replyToId cleared to null rather than
cascade-deleting it. -/
theorem destroy_clears_reply_references
    (db : DB) (callerId messageId : Nat) (m r : Message)
    (hfind : db.messages.find? (fun x => x.id == messageId) = some m)
    (hown : m.userId = callerId)
    (hr : r ∈ db.messages)
    (hrr : r.replyToId = some messageId)
    (hrid : r.id ≠ messageId) :
    (MessageController.destroy db callerId messageId).1
        = MessageController.DestroyResult.noContent ∧
    (∀ x ∈ (MessageController.destroy db callerId messageId).2.messages,
        x.id ≠ messageId) ∧
    { r with replyToId := none }
        ∈ (MessageController.destroy db callerId messageId).2.messages := by
  have hres : MessageController.destroy db callerId messageId
      = (MessageController.DestroyResult.noContent,
         MessageController.dbDeleteMessage db messageId) := by
    unfold MessageController.destroy
    rw [hfind]
    dsimp only
    rw [if_neg (by simp [hown])]
  refine ⟨by rw [hres], ?_, ?_⟩
  · rw [hres]
    intro x hx
    simp only [MessageController.dbDeleteMessage, List.mem_map, List.mem_filter] at hx
    obtain ⟨y, ⟨_, hyid⟩, hxy⟩ := hx
    have hy : y.id ≠ messageId := by simpa using hyid
    have hxyid : x.id = y.id := by
      rw [← hxy]
      split <;> rfl
    rw [hxyid]
    exact hy
  · rw [hres]
    simp only [MessageController.dbDeleteMessage, List.mem_map]
    refine ⟨r, List.mem_filter.mpr ⟨hr, by simpa using hrid⟩, ?_⟩
    rw [hrr]
    simp

/-- Witness for C8: deleting message 1 of dbThread keeps reply 2 with a
cleared reference. -/
theorem destroy_clears_reply_references_witness :
    (MessageController.destroy dbThread 1 1).1
        = MessageController.DestroyResult.noContent ∧
    (∀ x ∈ (MessageController.destroy dbThread 1 1).2.messages, x.id ≠ 1) ∧
    { (⟨2, 1, 2, "re", some 1, none, 2⟩ : Message) with replyToId := none }
        ∈ (MessageController.destroy dbThread 1 1).2.messages :=
  destroy_clears_reply_references dbThread 1 1
    ⟨1, 1, 1, "hello", none, none, 1⟩ ⟨2, 1, 2, "re", some 1, none, 2⟩
    rfl rfl (by decide) rfl (by decide)

/-- Claim C5 fails on the code as stated: with a caller who is not a
participant of the target conversation (here user 2, who is a
participant of the reply target's conversation 2 but not of
conversation 1), creating a message in conversation 1 with replyToId
pointing at cross-conversation message 1 fails with the 403
not-a-participant response — the participant gate runs before the
reply checks — not with the cross-conversation response. -/
theorem cross_reply_nonparticipant_cx :
    (MessageController.store dbCross 2 1 "hi" (some 1)).1
      = MessageController.StoreResult.notAParticipant ∧
    MessageController.StoreResult.notAParticipant
      ≠ MessageController.StoreResult.replyTargetCrossConversation ∧
    dbCross.messages.find? (fun m => m.id == 1)
      = some ⟨1, 2, 2, "x", none, none, 0⟩ ∧
    ConversationAuthorizationService.isParticipant dbCross 1 2 = false ∧
    ConversationAuthorizationService.isParticipant dbCross 2 2 = true := by
  refine ⟨by decide, by decide, by decide, by decide, by decide⟩

/-- Claim C5 amended: provided the caller is a participant of the
target conversation, creating a message there with a replyToId whose
message belongs to a different conversation always fails with the
cross-conversation response and leaves the state unchanged, regardless
of the caller's membership in the reply target's conversation; a caller
who is not a participant of the target conversation instead fails on
the participant gate, which runs first. -/
theorem cross_reply_rejected_for_participant
    (db : DB) (callerId conversationId : Nat) (content : String) (m : Message)
    (hval : 1 ≤ (trimString content).length)
    (hpart : ConversationAuthorizationService.isParticipant db conversationId callerId
      = true)
    (hfind : db.messages.find? (fun x => x.id == m.id) = some m)
    (hmid : m.id ≠ 0)
    (hcross : m.conversationId ≠ conversationId) :
    MessageController.store db callerId conversationId content (some m.id)
      = (MessageController.StoreResult.replyTargetCrossConversation, db) := by
  have h1 : Validators.createMessage content (some m.id)
      = some (trimString content, some m.id) := by
    unfold Validators.createMessage Validators.trimmedNonEmpty
    rw [if_pos hval]
    rfl
  have hbeq : (m.id == 0) = false := by
    simpa using hmid
  unfold MessageController.store
  rw [h1]
  dsimp only
  rw [hpart, Bool.not_true]
  rw [if_neg (by simp)]
  rw [hbeq]
  rw [if_neg (by simp)]
  dsimp only
  rw [hfind]
  dsimp only
  rw [if_pos hcross]

/-- Witness for the amended C5: user 1 is a participant of conversation
1 and replies there to message 1, which lives in conversation 2. -/
theorem cross_reply_rejected_for_participant_witness :
    MessageController.store dbCross 1 1 "hi" (some 1)
      = (MessageController.StoreResult.replyTargetCrossConversation, dbCross) :=
  cross_reply_rejected_for_participant dbCross 1 1 "hi"
    ⟨1, 2, 2, "x", none, none, 0⟩
    (by decide) (by decide) (by decide) (by decide) (by decide)

/-- Claim C7 fails on the code as stated when the caller removes
themselves: the first call succeeds, but the second fails the caller's
own participant gate with the 403 not-a-participant response, not with
participant-not-found. -/
theorem remove_participant_self_twice_cx :
    (ConversationController.removeParticipant dbRoster 1 1 1).1
      = ConversationController.RemoveParticipantResult.ok ∧
    (ConversationController.removeParticipant
        (ConversationController.removeParticipant dbRoster 1 1 1).2 1 1 1).1
      = ConversationController.RemoveParticipantResult.notAParticipant ∧
    ConversationController.RemoveParticipantResult.notAParticipant
      ≠ ConversationController.RemoveParticipantResult.participantNotFound := by
  refine ⟨by decide, by decide, by decide⟩

/-- Claim C7 amended: for a caller distinct from the target, with both
participants of the conversation (participant rows having distinct
primary keys and at most one row per conversation-user pair), removing
the target twice yields success then participant-not-found; when caller
and target coincide the second call yields not-a-participant instead. -/
theorem remove_participant_twice_success_then_not_found
    (db : DB) (callerId conversationId targetUserId : Nat)
    (hne : callerId ≠ targetUserId)
    (hcaller : ConversationAuthorizationService.isParticipant db conversationId callerId
      = true)
    (htarget : ConversationAuthorizationService.isParticipant db conversationId targetUserId
      = true)
    (hids : db.participants.Pairwise (fun a b => a.id ≠ b.id))
    (hpairs : db.participants.Pairwise (fun a b =>
        ¬(a.conversationId = b.conversationId ∧ a.userId = b.userId))) :
    (ConversationController.removeParticipant db callerId conversationId targetUserId).1
      = ConversationController.RemoveParticipantResult.ok ∧
    (ConversationController.removeParticipant
        (ConversationController.removeParticipant db callerId conversationId targetUserId).2
        callerId conversationId targetUserId).1
      = ConversationController.RemoveParticipantResult.participantNotFound := by
  unfold ConversationAuthorizationService.isParticipant at htarget hcaller
  obtain ⟨p, hpfind⟩ := Option.isSome_iff_exists.mp htarget
  obtain ⟨q, hqfind⟩ := Option.isSome_iff_exists.mp hcaller
  have hpmem := List.mem_of_find?_eq_some hpfind
  have hqmem := List.mem_of_find?_eq_some hqfind
  have hppred := List.find?_some hpfind
  have hqpred := List.find?_some hqfind
  simp only [Bool.and_eq_true, beq_iff_eq] at hppred hqpred
  obtain ⟨hpc, hpu⟩ := hppred
  obtain ⟨hqc, hqu⟩ := hqpred
  have hqnep : q ≠ p := by
    intro h
    apply hne
    rw [← hqu, h, hpu]
  have hsym1 : Symmetric (fun a b : Participant => a.id ≠ b.id) :=
    fun a b h => Ne.symm h
  have hqpid : q.id ≠ p.id := hids.forall hsym1 hqmem hpmem hqnep
  have hfst : ConversationController.removeParticipant db callerId conversationId targetUserId
      = (ConversationController.RemoveParticipantResult.ok,
         { db with participants := db.participants.filter (fun x => x.id != p.id) }) := by
    unfold ConversationController.removeParticipant
      ConversationAuthorizationService.isParticipant
    rw [hcaller, Bool.not_true]
    rw [if_neg (by simp), hpfind]
  have h2mem : q ∈ db.participants.filter (fun x => x.id != p.id) :=
    List.mem_filter.mpr ⟨hqmem, by simpa using hqpid⟩
  have h2 : ((db.participants.filter (fun x => x.id != p.id)).find?
      (fun r => r.conversationId == conversationId && r.userId == callerId)).isSome
      = true := by
    simp only [List.find?_isSome]
    exact ⟨q, h2mem, by simp [hqc, hqu]⟩
  have h3 : (db.participants.filter (fun x => x.id != p.id)).find?
      (fun r => r.conversationId == conversationId && r.userId == targetUserId)
      = none := by
    rw [List.find?_eq_none]
    intro x hx hpx
    have hxmem : x ∈ db.participants := (List.mem_filter.mp hx).1
    have hxid : x.id ≠ p.id := by simpa using (List.mem_filter.mp hx).2
    have hxnep : x ≠ p := fun h => hxid (congrArg Participant.id h)
    have hsym2 : Symmetric (fun a b : Participant =>
        ¬(a.conversationId = b.conversationId ∧ a.userId = b.userId)) :=
      fun a b h hc => h ⟨hc.1.symm, hc.2.symm⟩
    have hnotpair := hpairs.forall hsym2 hxmem hpmem hxnep
    simp only [Bool.and_eq_true, beq_iff_eq] at hpx
    exact hnotpair ⟨hpx.1.trans hpc.symm, hpx.2.trans hpu.symm⟩
  refine ⟨by rw [hfst], ?_⟩
  rw [hfst]
  unfold ConversationController.removeParticipant
    ConversationAuthorizationService.isParticipant
  rw [h2, Bool.not_true]
  rw [if_neg (by simp), h3]

/-- Witness for the amended C7: user 1 removes user 2 from conversation
1 twice. -/
theorem remove_participant_twice_success_then_not_found_witness :
    (ConversationController.removeParticipant dbRoster 1 1 2).1
      = ConversationController.RemoveParticipantResult.ok ∧
    (ConversationController.removeParticipant
        (ConversationController.removeParticipant dbRoster 1 1 2).2 1 1 2).1
      = ConversationController.RemoveParticipantResult.participantNotFound :=
  remove_participant_twice_success_then_not_found dbRoster 1 1 2
    (by decide) (by decide) (by decide) (by decide) (by decide)

/-- Claim C4 fails on the code in its surfacing part: in the
interleaving where both calls pass the read-phase checks, the loser's
insert hits the unique constraint and the controller's catch block
re-raises that database error — the loser receives the generic error
response, not the already-participant response (exactly one row is
persisted and only one call succeeds, as the claim also states). -/
theorem add_participant_race_not_surfaced_cx :
    ((ConversationController.addParticipantRace dbRace 1 2 1 3).1).1
      = ConversationController.AddParticipantResult.ok ∧
    ((ConversationController.addParticipantRace dbRace 1 2 1 3).1).2
      = ConversationController.AddParticipantResult.uniqueViolationError ∧
    ConversationController.AddParticipantResult.uniqueViolationError
      ≠ ConversationController.AddParticipantResult.alreadyParticipant ∧
    ((ConversationController.addParticipantRace dbRace 1 2 1 3).2.participants.filter
        (fun p => p.conversationId == 1 && p.userId == 3)).length = 1 := by
  refine ⟨by decide, by decide, by decide, by decide⟩

/-- Claim C4 amended: when two concurrent addParticipant calls for the
same pair both pass the read-phase checks and both attempt the insert,
the first succeeds, exactly one participant row for the pair is
persisted (the unique constraint blocks the second insert), and the
loser's failure surfaces as the generic re-raised database error, not
as the already-participant response. -/
theorem add_participant_race_single_row
    (db : DB) (caller1 caller2 conversationId targetUserId : Nat)
    (h1 : ConversationAuthorizationService.isParticipant db conversationId caller1 = true)
    (h2 : ConversationAuthorizationService.isParticipant db conversationId caller2 = true)
    (hno : db.participants.find? (fun p =>
        p.conversationId == conversationId && p.userId == targetUserId) = none)
    (huser : (findUser db targetUserId).isSome = true) :
    ((ConversationController.addParticipantRace db caller1 caller2
        conversationId targetUserId).1).1
      = ConversationController.AddParticipantResult.ok ∧
    ((ConversationController.addParticipantRace db caller1 caller2
        conversationId targetUserId).1).2
      = ConversationController.AddParticipantResult.uniqueViolationError ∧
    ((ConversationController.addParticipantRace db caller1 caller2
        conversationId targetUserId).2.participants.filter
        (fun p => p.conversationId == conversationId && p.userId == targetUserId)).length
      = 1 := by
  obtain ⟨u, hu⟩ := Option.isSome_iff_exists.mp huser
  have hphase1 : ConversationController.addPhase db caller1 conversationId targetUserId
      = none := by
    unfold ConversationController.addPhase
    rw [h1, Bool.not_true, if_neg (by simp), hno]
    rw [Option.isSome_none, if_neg (by simp), hu]
    rfl
  have hphase2 : ConversationController.addPhase db caller2 conversationId targetUserId
      = none := by
    unfold ConversationController.addPhase
    rw [h2, Bool.not_true, if_neg (by simp), hno]
    rw [Option.isSome_none, if_neg (by simp), hu]
    rfl
  have hrow : (fun p : Participant =>
      p.conversationId == conversationId && p.userId == targetUserId)
      (⟨db.nextParticipantId, conversationId, targetUserId, db.now⟩ : Participant)
      = true := by
    simp
  have hins1 : ConversationController.insertParticipant db conversationId targetUserId
      = (ConversationController.AddParticipantResult.ok,
         { db with
            participants := db.participants ++
              [⟨db.nextParticipantId, conversationId, targetUserId, db.now⟩]
            nextParticipantId := db.nextParticipantId + 1 }) := by
    unfold ConversationController.insertParticipant
    rw [hno, Option.isSome_none, if_neg (by simp)]
  have hins2 : ConversationController.insertParticipant
      { db with
          participants := db.participants ++
            [⟨db.nextParticipantId, conversationId, targetUserId, db.now⟩]
          nextParticipantId := db.nextParticipantId + 1 }
      conversationId targetUserId
      = (ConversationController.AddParticipantResult.uniqueViolationError,
         { db with
            participants := db.participants ++
              [⟨db.nextParticipantId, conversationId, targetUserId, db.now⟩]
            nextParticipantId := db.nextParticipantId + 1 }) := by
    unfold ConversationController.insertParticipant
    rw [List.find?_append, hno, Option.none_or]
    simp
  have hrace : ConversationController.addParticipantRace db caller1 caller2
      conversationId targetUserId
      = ((ConversationController.AddParticipantResult.ok,
          ConversationController.AddParticipantResult.uniqueViolationError),
         { db with
            participants := db.participants ++
              [⟨db.nextParticipantId, conversationId, targetUserId, db.now⟩]
            nextParticipantId := db.nextParticipantId + 1 }) := by
    unfold ConversationController.addParticipantRace
    rw [hphase1, hphase2]
    dsimp only
    rw [hins1]
    dsimp only
    rw [hins2]
  have hfilter : db.participants.filter (fun p =>
      p.conversationId == conversationId && p.userId == targetUserId) = [] := by
    rw [List.filter_eq_nil_iff]
    have := List.find?_eq_none.mp hno
    exact fun a ha hpa => this a ha hpa
  refine ⟨by rw [hrace], by rw [hrace], ?_⟩
  rw [hrace]
  dsimp only
  rw [List.filter_append, hfilter]
  simp [hrow]

/-- Witness for the amended C4: users 1 and 2 race to add user 3 to
conversation 1. -/
theorem add_participant_race_single_row_witness :
    ((ConversationController.addParticipantRace dbRace 1 2 1 3).1).1
      = ConversationController.AddParticipantResult.ok ∧
    ((ConversationController.addParticipantRace dbRace 1 2 1 3).1).2
      = ConversationController.AddParticipantResult.uniqueViolationError ∧
    ((ConversationController.addParticipantRace dbRace 1 2 1 3).2.participants.filter
        (fun p => p.conversationId == 1 && p.userId == 3)).length = 1 :=
  add_participant_race_single_row dbRace 1 2 1 3
    (by decide) (by decide) (by decide) (by decide)

/-- Claim C1: a participant replying to an existing message of the same
conversation succeeds — neither reply-target error fires — and the
created response carries the shallow reply preview with the target's
content and the target author's identity. -/
theorem store_reply_same_conversation_succeeds
    (db : DB) (callerId conversationId : Nat) (content : String)
    (m : Message) (a : User)
    (hval : 1 ≤ (trimString content).length)
    (hpart : ConversationAuthorizationService.isParticipant db conversationId callerId
      = true)
    (hfind : db.messages.find? (fun x => x.id == m.id) = some m)
    (hmid : m.id ≠ 0)
    (hsame : m.conversationId = conversationId)
    (hauthor : findUser db m.userId = some a) :
    MessageController.store db callerId conversationId content (some m.id)
      = (MessageController.StoreResult.created
          ⟨db.nextMessageId, conversationId, callerId, trimString content,
            some m.id, none, db.now⟩
          (some ⟨m.id, m.content, m.userId, some (userSummaryOf a)⟩),
         { db with
            messages := db.messages ++
              [⟨db.nextMessageId, conversationId, callerId, trimString content,
                 some m.id, none, db.now⟩]
            nextMessageId := db.nextMessageId + 1 }) := by
  have h1 : Validators.createMessage content (some m.id)
      = some (trimString content, some m.id) := by
    unfold Validators.createMessage Validators.trimmedNonEmpty
    rw [if_pos hval]
    rfl
  have hbeq : (m.id == 0) = false := by
    simpa using hmid
  unfold findUser at hauthor
  unfold MessageController.store
  rw [h1]
  dsimp only
  rw [hpart, Bool.not_true, if_neg (by simp), hbeq, if_neg (by simp)]
  dsimp only
  rw [hfind]
  dsimp only
  rw [if_neg (by simp [hsame])]
  unfold MessageController.insertMessage loadReplyPreview findUser
  dsimp only
  rw [List.find?_append, hfind, Option.or_some, Option.map_some', hauthor]
  rfl

/-- Witness for C1: participant 2 replies to message 1 ("hello" by user
1) in conversation 1 of dbReply. -/
theorem store_reply_same_conversation_succeeds_witness :
    MessageController.store dbReply 2 1 "hi" (some 1)
      = (MessageController.StoreResult.created
          ⟨dbReply.nextMessageId, 1, 2, trimString "hi", some 1, none, dbReply.now⟩
          (some ⟨1, "hello", 1, some (userSummaryOf ⟨1, "a@x", some "A"⟩)⟩),
         { dbReply with
            messages := dbReply.messages ++
              [⟨dbReply.nextMessageId, 1, 2, trimString "hi", some 1, none, dbReply.now⟩]
            nextMessageId := dbReply.nextMessageId + 1 }) :=
  store_reply_same_conversation_succeeds dbReply 2 1 "hi"
    ⟨1, 1, 1, "hello", none, none, 1⟩ ⟨1, "a@x", some "A"⟩
    (by decide) (by decide) (by decide) (by decide) (by decide) (by decide)

/-- With unique user ids, if the requested id list has an id that
matches no user, strictly fewer user rows match than ids were
requested. -/
theorem users_filter_contains_length_lt
    (users : List User) (pids : List Nat) (x : Nat)
    (hnodup : (users.map (fun u => u.id)).Nodup)
    (hx : x ∈ pids)
    (hxu : ∀ u ∈ users, u.id ≠ x) :
    (users.filter (fun u => pids.contains u.id)).length < pids.length := by
  have hsubl : List.Sublist
      ((users.filter (fun u => pids.contains u.id)).map (fun u => u.id))
      (users.map (fun u => u.id)) :=
    (List.filter_sublist users).map (fun u => u.id)
  have hfnd := List.Nodup.sublist hsubl hnodup
  have hsub : ((users.filter (fun u => pids.contains u.id)).map (fun u => u.id)).toFinset
      ⊆ pids.toFinset.erase x := by
    intro b hb
    rw [List.mem_toFinset] at hb
    obtain ⟨u, hu, rfl⟩ := List.mem_map.mp hb
    obtain ⟨hum, hup⟩ := List.mem_filter.mp hu
    refine Finset.mem_erase.mpr ⟨hxu u hum, List.mem_toFinset.mpr ?_⟩
    simpa using hup
  calc (users.filter (fun u => pids.contains u.id)).length
      = ((users.filter (fun u => pids.contains u.id)).map (fun u => u.id)).length :=
        (List.length_map _ _).symm
    _ = ((users.filter (fun u => pids.contains u.id)).map (fun u => u.id)).toFinset.card :=
        (List.toFinset_card_of_nodup hfnd).symm
    _ ≤ (pids.toFinset.erase x).card := Finset.card_le_card hsub
    _ < pids.toFinset.card := Finset.card_erase_lt_of_mem (List.mem_toFinset.mpr hx)
    _ ≤ pids.length := pids.toFinset_card_le

/-- With unique user ids, a duplicate-free requested id list all of
whose ids match a user matches exactly as many user rows as ids. -/
theorem users_filter_contains_length_eq
    (users : List User) (pids : List Nat)
    (hnodupU : (users.map (fun u => u.id)).Nodup)
    (hnodupP : pids.Nodup)
    (hvalid : ∀ i ∈ pids, ∃ u ∈ users, u.id = i) :
    (users.filter (fun u => pids.contains u.id)).length = pids.length := by
  have hsubl : List.Sublist
      ((users.filter (fun u => pids.contains u.id)).map (fun u => u.id))
      (users.map (fun u => u.id)) :=
    (List.filter_sublist users).map (fun u => u.id)
  have hfnd := List.Nodup.sublist hsubl hnodupU
  have hset : ((users.filter (fun u => pids.contains u.id)).map (fun u => u.id)).toFinset
      = pids.toFinset := by
    ext b
    simp only [List.mem_toFinset, List.mem_map]
    constructor
    · rintro ⟨u, hu, rfl⟩
      obtain ⟨hum, hup⟩ := List.mem_filter.mp hu
      simpa using hup
    · intro hb
      obtain ⟨u, hum, huid⟩ := hvalid b hb
      exact ⟨u, List.mem_filter.mpr ⟨hum, by simp [huid, hb]⟩, huid⟩
  calc (users.filter (fun u => pids.contains u.id)).length
      = ((users.filter (fun u => pids.contains u.id)).map (fun u => u.id)).length :=
        (List.length_map _ _).symm
    _ = ((users.filter (fun u => pids.contains u.id)).map (fun u => u.id)).toFinset.card :=
        (List.toFinset_card_of_nodup hfnd).symm
    _ = pids.toFinset.card := by rw [hset]
    _ = pids.length := List.toFinset_card_of_nodup hnodupP

/-- Claim C2: when the participant id list holds an id that matches no
user, conversation creation fails with the invalid-participant
response, yet the conversation row and the creator's participant row
are already persisted — the multi-step creation is not atomic and
nothing rolls the committed steps back. -/
theorem conversation_store_invalid_participant_partial_commit
    (db : DB) (callerId : Nat) (name descr : Option String)
    (participantIds : List Nat) (x : Nat)
    (hcaller : ∃ u ∈ db.users, u.id = callerId)
    (hnodup : (db.users.map (fun u => u.id)).Nodup)
    (hx : x ∈ participantIds)
    (hxu : ∀ u ∈ db.users, u.id ≠ x) :
    (ConversationController.store db callerId name descr participantIds).1
      = ConversationController.StoreResult.invalidParticipant ∧
    (∃ c ∈ (ConversationController.store db callerId name descr participantIds).2.conversations,
        c.id = db.nextConversationId ∧ c.createdBy = callerId) ∧
    (∃ p ∈ (ConversationController.store db callerId name descr participantIds).2.participants,
        p.conversationId = db.nextConversationId ∧ p.userId = callerId) := by
  obtain ⟨u0, hu0mem, hu0id⟩ := hcaller
  have hxc : (x != callerId) = true := by
    simp only [bne_iff_ne, ne_eq]
    intro h
    exact hxu u0 hu0mem (hu0id.trans h.symm)
  have hxp : x ∈ participantIds.filter (fun i => i != callerId) :=
    List.mem_filter.mpr ⟨hx, hxc⟩
  have hv : Validators.createConversation participantIds = true := by
    unfold Validators.createConversation
    exact decide_eq_true (List.length_pos_of_mem hx)
  have hpos : 0 < (participantIds.filter (fun i => i != callerId)).length :=
    List.length_pos_of_mem hxp
  have hne : (db.users.filter (fun u =>
      (participantIds.filter (fun i => i != callerId)).contains u.id)).length
      ≠ (participantIds.filter (fun i => i != callerId)).length :=
    Nat.ne_of_lt (users_filter_contains_length_lt db.users _ x hnodup hxp hxu)
  have hres : ConversationController.store db callerId name descr participantIds
      = (ConversationController.StoreResult.invalidParticipant,
         { db with
            conversations := db.conversations ++
              [⟨db.nextConversationId, name, descr, callerId, db.now⟩]
            participants := db.participants ++
              [⟨db.nextParticipantId, db.nextConversationId, callerId, db.now⟩]
            nextConversationId := db.nextConversationId + 1
            nextParticipantId := db.nextParticipantId + 1 }) := by
    unfold ConversationController.store
    rw [hv, Bool.not_true, if_neg (by simp)]
    dsimp only
    rw [if_pos hpos, if_pos hne]
  refine ⟨by rw [hres], ?_, ?_⟩
  · rw [hres]
    refine ⟨⟨db.nextConversationId, name, descr, callerId, db.now⟩, ?_, rfl, rfl⟩
    simp
  · rw [hres]
    refine ⟨⟨db.nextParticipantId, db.nextConversationId, callerId, db.now⟩, ?_, rfl, rfl⟩
    simp

/-- Witness for C2: user 1 creates a conversation naming ids 2 and 9;
id 9 matches no user. -/
theorem conversation_store_invalid_participant_partial_commit_witness :
    (ConversationController.store dbFresh 1 none none [2, 9]).1
      = ConversationController.StoreResult.invalidParticipant ∧
    (∃ c ∈ (ConversationController.store dbFresh 1 none none [2, 9]).2.conversations,
        c.id = dbFresh.nextConversationId ∧ c.createdBy = 1) ∧
    (∃ p ∈ (ConversationController.store dbFresh 1 none none [2, 9]).2.participants,
        p.conversationId = dbFresh.nextConversationId ∧ p.userId = 1) :=
  conversation_store_invalid_participant_partial_commit dbFresh 1 none none [2, 9] 9
    ⟨⟨1, "a@x", none⟩, by decide, rfl⟩ (by decide) (by decide) (by decide)

/-- Claim C6 fails on the code for duplicate ids: with both requested
ids resolving to the existing user 2, the list [2, 2] makes the
distinct matched rows (one) differ from the requested count (two), so
creation fails with the invalid-participant response instead of
de-duplicating and succeeding. -/
theorem conversation_store_duplicate_ids_cx :
    (findUser dbFresh 2).isSome = true ∧
    (ConversationController.store dbFresh 1 none none [2, 2]).1
      = ConversationController.StoreResult.invalidParticipant := by
  refine ⟨by decide, by decide⟩

/-- Claim C6 amended: for a duplicate-free participant id list whose
every id resolves to an existing user, creation succeeds and the new
conversation's roster is exactly the creator plus every listed id other
than the creator; ids equal to the creator are skipped. Duplicate ids
in the list are not de-duplicated: they make the creation fail with the
invalid-participant response instead. -/
theorem conversation_store_distinct_valid_ids_roster
    (db : DB) (callerId : Nat) (name descr : Option String)
    (participantIds : List Nat)
    (hlen : 1 ≤ participantIds.length)
    (hnodupP : participantIds.Nodup)
    (hnodupU : (db.users.map (fun u => u.id)).Nodup)
    (hvalid : ∀ i ∈ participantIds, ∃ u ∈ db.users, u.id = i)
    (hwf : ∀ p ∈ db.participants, p.conversationId ≠ db.nextConversationId) :
    (ConversationController.store db callerId name descr participantIds).1
      = ConversationController.StoreResult.created
          ⟨db.nextConversationId, name, descr, callerId, db.now⟩ ∧
    ((ConversationController.store db callerId name descr
        participantIds).2.participants.filter
        (fun p => p.conversationId == db.nextConversationId)).map (fun p => p.userId)
      = callerId :: participantIds.filter (fun i => i != callerId) := by
  have hv : Validators.createConversation participantIds = true := by
    unfold Validators.createConversation
    exact decide_eq_true hlen
  have hoarse : db.participants.filter
      (fun p => p.conversationId == db.nextConversationId) = [] := by
    rw [List.filter_eq_nil_iff]
    intro a ha
    simpa using hwf a ha
  by_cases hp : 0 < (participantIds.filter (fun i => i != callerId)).length
  · have hvalid2 : ∀ i ∈ participantIds.filter (fun i => i != callerId),
        ∃ u ∈ db.users, u.id = i :=
      fun i hi => hvalid i (List.mem_filter.mp hi).1
    have heq : (db.users.filter (fun u =>
        (participantIds.filter (fun i => i != callerId)).contains u.id)).length
        = (participantIds.filter (fun i => i != callerId)).length :=
      users_filter_contains_length_eq db.users _ hnodupU
        (hnodupP.filter _) hvalid2
    have hres : ConversationController.store db callerId name descr participantIds
        = (ConversationController.StoreResult.created
            ⟨db.nextConversationId, name, descr, callerId, db.now⟩,
           { db with
              conversations := db.conversations ++
                [⟨db.nextConversationId, name, descr, callerId, db.now⟩]
              participants := (db.participants ++
                [⟨db.nextParticipantId, db.nextConversationId, callerId, db.now⟩]) ++
                (participantIds.filter (fun i => i != callerId)).enum.map (fun ik =>
                  (⟨db.nextParticipantId + 1 + ik.1, db.nextConversationId,
                    ik.2, db.now⟩ : Participant))
              nextConversationId := db.nextConversationId + 1
              nextParticipantId := db.nextParticipantId + 1 +
                (participantIds.filter (fun i => i != callerId)).length }) := by
      unfold ConversationController.store
      rw [hv, Bool.not_true, if_neg (by simp)]
      dsimp only
      rw [if_pos hp, if_neg (fun h => h heq)]
    refine ⟨by rw [hres], ?_⟩
    rw [hres]
    dsimp only
    rw [List.filter_append, List.filter_append, hoarse]
    have hone : List.filter (fun p => p.conversationId == db.nextConversationId)
        [(⟨db.nextParticipantId, db.nextConversationId, callerId, db.now⟩ : Participant)]
        = [⟨db.nextParticipantId, db.nextConversationId, callerId, db.now⟩] := by
      simp
    have hrows : ((participantIds.filter (fun i => i != callerId)).enum.map (fun ik =>
        (⟨db.nextParticipantId + 1 + ik.1, db.nextConversationId,
          ik.2, db.now⟩ : Participant))).filter
        (fun p => p.conversationId == db.nextConversationId)
        = (participantIds.filter (fun i => i != callerId)).enum.map (fun ik =>
            (⟨db.nextParticipantId + 1 + ik.1, db.nextConversationId,
              ik.2, db.now⟩ : Participant)) := by
      rw [List.filter_eq_self]
      intro a ha
      obtain ⟨ik, _, rfl⟩ := List.mem_map.mp ha
      simp
    rw [hone, hrows, List.nil_append]
    rw [List.singleton_append, List.map_cons, List.map_map]
    have hsnd : ((participantIds.filter (fun i => i != callerId)).enum.map
        ((fun p : Participant => p.userId) ∘ (fun ik : Nat × Nat =>
          (⟨db.nextParticipantId + 1 + ik.1, db.nextConversationId,
            ik.2, db.now⟩ : Participant))))
        = participantIds.filter (fun i => i != callerId) :=
      List.enum_map_snd _
    rw [hsnd]
  · have hpnil : participantIds.filter (fun i => i != callerId) = [] :=
      List.length_eq_zero.mp (Nat.eq_zero_of_not_pos hp)
    have hres : ConversationController.store db callerId name descr participantIds
        = (ConversationController.StoreResult.created
            ⟨db.nextConversationId, name, descr, callerId, db.now⟩,
           { db with
              conversations := db.conversations ++
                [⟨db.nextConversationId, name, descr, callerId, db.now⟩]
              participants := db.participants ++
                [⟨db.nextParticipantId, db.nextConversationId, callerId, db.now⟩]
              nextConversationId := db.nextConversationId + 1
              nextParticipantId := db.nextParticipantId + 1 }) := by
      unfold ConversationController.store
      rw [hv, Bool.not_true, if_neg (by simp)]
      dsimp only
      rw [if_neg hp]
    refine ⟨by rw [hres], ?_⟩
    rw [hres, hpnil]
    dsimp only
    rw [List.filter_append, hoarse, List.nil_append]
    simp

/-- Witness for the amended C6: user 1 creates a conversation with
participant list [2] in the fresh store; the roster is [1, 2]. -/
theorem conversation_store_distinct_valid_ids_roster_witness :
    (ConversationController.store dbFresh 1 none none [2]).1
      = ConversationController.StoreResult.created
          ⟨dbFresh.nextConversationId, none, none, 1, dbFresh.now⟩ ∧
    ((ConversationController.store dbFresh 1 none none
        [2]).2.participants.filter
        (fun p => p.conversationId == dbFresh.nextConversationId)).map (fun p => p.userId)
      = 1 :: [2].filter (fun i => i != 1) :=
  conversation_store_distinct_valid_ids_roster dbFresh 1 none none [2]
    (by decide) (by decide) (by decide) (by decide) (by decide)

/-- Claim C9: for a participant listing a conversation that holds 120
messages without passing a page size (so the default 50 applies), pages
1 and 2 hold exactly 50 messages, page 3 exactly 20, the three pages
concatenate to the newest-created-first ordering of all 120 messages,
and an explicit page size of 50 gives the same first page as the
default. -/
theorem message_index_pagination_120
    (db : DB) (callerId conversationId : Nat)
    (hpart : ConversationAuthorizationService.isParticipant db conversationId callerId
      = true)
    (hlen : (db.messages.filter (fun m => m.conversationId == conversationId)).length
      = 120) :
    ∃ p1 p2 p3,
      MessageController.index db callerId conversationId (some 1) none
        = MessageController.IndexResult.ok p1 ∧
      MessageController.index db callerId conversationId (some 2) none
        = MessageController.IndexResult.ok p2 ∧
      MessageController.index db callerId conversationId (some 3) none
        = MessageController.IndexResult.ok p3 ∧
      p1.length = 50 ∧ p2.length = 50 ∧ p3.length = 20 ∧
      List.Sorted newestFirst (p1 ++ p2 ++ p3) ∧
      (p1 ++ p2 ++ p3).Perm
        (db.messages.filter (fun m => m.conversationId == conversationId)) ∧
      MessageController.index db callerId conversationId (some 1) none
        = MessageController.index db callerId conversationId (some 1) (some 50) := by
  have hidx : ∀ (pg : Nat) (l : Option Nat),
      MessageController.index db callerId conversationId (some pg) l
      = MessageController.IndexResult.ok
        (((sortNewestFirst (db.messages.filter
            (fun m => m.conversationId == conversationId))).drop
          ((pg - 1) * (l.getD 50))).take (l.getD 50)) := by
    intro pg l
    unfold MessageController.index
    rw [hpart, Bool.not_true, if_neg (by simp)]
    rfl
  have hslen : (sortNewestFirst (db.messages.filter
      (fun m => m.conversationId == conversationId))).length = 120 := by
    unfold sortNewestFirst
    rw [List.length_insertionSort]
    exact hlen
  have hsorted : List.Sorted newestFirst (sortNewestFirst (db.messages.filter
      (fun m => m.conversationId == conversationId))) :=
    List.sorted_insertionSort newestFirst _
  have hperm : (sortNewestFirst (db.messages.filter
      (fun m => m.conversationId == conversationId))).Perm
      (db.messages.filter (fun m => m.conversationId == conversationId)) :=
    List.perm_insertionSort newestFirst _
  generalize hs : sortNewestFirst (db.messages.filter
      (fun m => m.conversationId == conversationId)) = s at hidx hslen hsorted hperm
  have hcat : s.take 50 ++ (s.drop 50).take 50 ++ (s.drop 100).take 50 = s := by
    have h3 : (s.drop 100).take 50 = s.drop 100 :=
      List.take_of_length_le (by rw [List.length_drop, hslen]; decide)
    have hdd : List.drop 50 (List.drop 50 s) = List.drop 100 s := by
      rw [List.drop_drop]
    rw [h3, List.append_assoc, ← hdd, List.take_append_drop, List.take_append_drop]
  refine ⟨s.take 50, (s.drop 50).take 50, (s.drop 100).take 50, hidx 1 none,
      hidx 2 none, hidx 3 none, ?_, ?_, ?_, ?_, ?_, ?_⟩
  · rw [List.length_take, hslen]
    decide
  · rw [List.length_take, List.length_drop, hslen]
    decide
  · rw [List.length_take, List.length_drop, hslen]
    decide
  · rw [hcat]
    exact hsorted
  · rw [hcat]
    exact hperm
  · rw [hidx 1 none, hidx 1 (some 50)]
    rfl

/-- Witness for C9: dbPages holds 120 messages in conversation 1 and
user 1 is a participant. -/
theorem message_index_pagination_120_witness :
    ∃ p1 p2 p3,
      MessageController.index dbPages 1 1 (some 1) none
        = MessageController.IndexResult.ok p1 ∧
      MessageController.index dbPages 1 1 (some 2) none
        = MessageController.IndexResult.ok p2 ∧
      MessageController.index dbPages 1 1 (some 3) none
        = MessageController.IndexResult.ok p3 ∧
      p1.length = 50 ∧ p2.length = 50 ∧ p3.length = 20 ∧
      List.Sorted newestFirst (p1 ++ p2 ++ p3) ∧
      (p1 ++ p2 ++ p3).Perm
        (dbPages.messages.filter (fun m => m.conversationId == 1)) ∧
      MessageController.index dbPages 1 1 (some 1) none
        = MessageController.index dbPages 1 1 (some 1) (some 50) :=
  message_index_pagination_120 dbPages 1 1 (by decide) (by decide)
